import Mathlib

/-!
# Verification of the skill_evaluator scoring engine

A shallow Lean embedding of the scoring/aggregation core of the
`skill_evaluator` repository (`scripts/models.py`, `scripts/score_utils.py`,
`scripts/history.py`, `scripts/orchestrator.py`, `scripts/config_loader.py`,
`scripts/evaluators/l2_activation.py`, `scripts/evaluators/l5_execution.py`).

Modelling conventions:
* Python `float` scores are modelled as exact rationals (`ℚ`); the claims under
  verification are about branch structure and exact aggregation formulas, not
  about binary floating-point rounding.
* Python `dict`s are modelled as association lists (`List (String × β)`) with
  unique keys; `d[k]` / `d.get(k, v)` are `List.lookup` / `getD`.
* Python exceptions are modelled with `Except`: a function that can raise
  returns `Except ε α`.
* Python `round(x, n)` rounds half-to-even; `roundHalfEven` / `pyRound1` model
  `round(x)` and `round(x, 1)` on exact rationals.
* Python `sorted` on strings is a stable sort by code point; `pySorted` is an
  insertion sort over the code-point order of the characters.
-/

/-- Python `round(x)` on an exact rational: round half to even. -/
def roundHalfEven (x : ℚ) : ℤ :=
  let f := ⌊x⌋
  let r := x - f
  if r < 1/2 then f
  else if 1/2 < r then f + 1
  else if f % 2 = 0 then f else f + 1

/-- Python `round(x, 1)`: round to the nearest tenth, half to even. -/
def pyRound1 (x : ℚ) : ℚ := (roundHalfEven (x * 10) : ℚ) / 10

theorem roundHalfEven_intCast (k : ℤ) : roundHalfEven (k : ℚ) = k := by
  simp only [roundHalfEven, Int.floor_intCast, sub_self]
  norm_num

theorem roundHalfEven_zero : roundHalfEven 0 = 0 := by
  simpa using roundHalfEven_intCast 0

/-- `round(x, 1)` fixes every multiple of `1/10` (as produced by
`build_snapshot`'s one-decimal rounding). -/
theorem pyRound1_tenth (k : ℤ) : pyRound1 ((k : ℚ) / 10) = (k : ℚ) / 10 := by
  have h : ((k : ℚ) / 10) * 10 = (k : ℚ) := by field_simp
  simp only [pyRound1, h, roundHalfEven_intCast]

theorem pyRound1_zero : pyRound1 0 = 0 := by
  simpa using pyRound1_tenth 0

/-- Code-point comparison of two strings (Python's `<=` on `str`). -/
def charListLe : List Char → List Char → Bool
  | [], _ => true
  | _ :: _, [] => false
  | a :: as, b :: bs =>
    if a.val < b.val then true
    else if b.val < a.val then false
    else charListLe as bs

/-- `a <= b` for Python strings. -/
def pyStrLe (a b : String) : Bool := charListLe a.data b.data

/-- Insert into a sorted list (helper for the stable `pySorted`). -/
def insertSorted (a : String) : List String → List String
  | [] => [a]
  | b :: rest => if pyStrLe a b then a :: b :: rest else b :: insertSorted a rest

/-- Python `sorted` on a list of strings (stable insertion sort by code point). -/
def pySorted (l : List String) : List String := l.foldr insertSorted []

theorem mem_insertSorted (a x : String) (l : List String) :
    x ∈ insertSorted a l ↔ x = a ∨ x ∈ l := by
  induction l with
  | nil => simp [insertSorted]
  | cons b rest ih =>
      by_cases h : pyStrLe a b
      · simp [insertSorted, h]
      · simp only [insertSorted, h, Bool.false_eq_true, if_false, List.mem_cons, ih]
        tauto

theorem mem_pySorted (x : String) (l : List String) : x ∈ pySorted l ↔ x ∈ l := by
  induction l with
  | nil => simp [pySorted]
  | cons a rest ih =>
      simp only [pySorted, List.foldr_cons] at *
      rw [mem_insertSorted, ih, List.mem_cons]

theorem insertSorted_perm (a : String) (l : List String) :
    List.Perm (insertSorted a l) (a :: l) := by
  induction l with
  | nil => simp [insertSorted]
  | cons b rest ih =>
      by_cases h : pyStrLe a b
      · simp [insertSorted, h]
      · simp only [insertSorted, h, Bool.false_eq_true, if_false]
        exact (ih.cons b).trans (List.Perm.swap a b rest)

theorem pySorted_perm (l : List String) : List.Perm (pySorted l) l := by
  induction l with
  | nil => simp [pySorted]
  | cons a rest ih =>
      simp only [pySorted, List.foldr_cons] at *
      exact (insertSorted_perm a _).trans (ih.cons a)

theorem pySorted_nodup (l : List String) (h : l.Nodup) : (pySorted l).Nodup :=
  (pySorted_perm l).nodup_iff.mpr h

/-- Python `d[k] = v` on a dict modelled as an association list: replace the
value in place when the key exists, append at the end otherwise. -/
def dictInsert (d : List (String × β)) (k : String) (v : β) : List (String × β) :=
  match d with
  | [] => [(k, v)]
  | p :: rest => if p.1 = k then (k, v) :: rest else p :: dictInsert rest k v

theorem lookup_dictInsert_self (d : List (String × β)) (k : String) (v : β) :
    (dictInsert d k v).lookup k = some v := by
  induction d with
  | nil => simp [dictInsert, List.lookup]
  | cons p rest ih =>
      by_cases hp : p.1 = k
      · simp [dictInsert, hp, List.lookup]
      · have hne : (k == p.1) = false := beq_false_of_ne (fun hh => hp hh.symm)
        simp [dictInsert, hp, List.lookup, hne, ih]

theorem lookup_dictInsert_ne (d : List (String × β)) (k k' : String) (v : β)
    (h : k' ≠ k) : (dictInsert d k v).lookup k' = d.lookup k' := by
  induction d with
  | nil =>
      have hne : (k' == k) = false := beq_false_of_ne h
      simp [dictInsert, List.lookup, hne]
  | cons p rest ih =>
      by_cases hp : p.1 = k
      · have hne : (k' == k) = false := beq_false_of_ne h
        have hne' : (k' == p.1) = false := by rw [hp]; exact hne
        simp [dictInsert, hp, List.lookup, hne, hne']
      · by_cases hp' : p.1 = k'
        · have h1 : (k' == p.1) = true := by rw [hp']; simp
          simp [dictInsert, if_neg hp, List.lookup, h1]
        · have h1 : (k' == p.1) = false := beq_false_of_ne (fun hh => hp' hh.symm)
          simp [dictInsert, hp, List.lookup, h1, ih]

theorem lookup_isSome_iff_mem (d : List (String × β)) (k : String) :
    (d.lookup k).isSome ↔ k ∈ d.map Prod.fst := by
  induction d with
  | nil => simp [List.lookup]
  | cons p rest ih =>
      by_cases hp : p.1 = k
      · simp [List.lookup, hp]
      · have h1 : (k == p.1) = false := beq_false_of_ne (fun hh => hp hh.symm)
        simp [List.lookup, h1, ih, Ne.symm hp]

/-! ## Data model (`scripts/models.py`) -/

/-- `MetricResult` from `scripts/models.py`. -/
structure MetricResult where
  name : String
  score : ℚ
  max_score : ℚ
  details : String
  passed : Bool := true
deriving Repr, DecidableEq

/-- `LayerResult` from `scripts/models.py`. -/
structure LayerResult where
  layer : String
  skill_name : String
  metrics : List MetricResult := []
  overall_score : ℚ := 0
  recommendations : List String := []
deriving Repr, DecidableEq

/-- `LayerResult.compute_score` from `scripts/models.py`: a total function (the
Python method never raises); mutation of `overall_score` is modelled by
returning the updated record. -/
def LayerResult.compute_score (lr : LayerResult) : LayerResult :=
  if lr.metrics.isEmpty then { lr with overall_score := 0 }
  else
    let total := (lr.metrics.map MetricResult.score).sum
    let max_total := (lr.metrics.map MetricResult.max_score).sum
    { lr with overall_score := if 0 < max_total then total / max_total * 100 else 0 }

/-- Sum helper: under the score-bound invariant, metrics with
`max_score = 0` contribute `0` to both sums, so restricting to metrics with
`max_score > 0` changes neither sum. -/
theorem sums_restrict_to_positive (ms : List MetricResult)
    (h : ∀ m ∈ ms, 0 ≤ m.score ∧ m.score ≤ m.max_score) :
    ((ms.filter fun m => decide (0 < m.max_score)).map MetricResult.score).sum
        = (ms.map MetricResult.score).sum ∧
    ((ms.filter fun m => decide (0 < m.max_score)).map MetricResult.max_score).sum
        = (ms.map MetricResult.max_score).sum := by
  induction ms with
  | nil => simp
  | cons m rest ih =>
      have hm := h m (List.mem_cons_self m rest)
      have hrest := ih (fun x hx => h x (List.mem_cons_of_mem m hx))
      by_cases hpos : 0 < m.max_score
      · simp [List.filter_cons, hpos, hrest.1, hrest.2]
      · have hmax0 : m.max_score = 0 := le_antisymm (not_lt.mp hpos) (hm.1.trans hm.2)
        have hscore0 : m.score = 0 := le_antisymm (hmax0 ▸ hm.2) hm.1
        simp [List.filter_cons, hpos, hrest.1, hrest.2, hmax0, hscore0]

/-- C1: for a `LayerResult` whose metrics all satisfy `0 ≤ score ≤ max_score`,
`compute_score()` sets `overall_score` to `100 × Σscore / Σmax_score` taken over
the metrics with `max_score > 0`, and to `0` when no metric has positive
`max_score` (in particular on an empty metric list); the function is total
(never raises) and metrics with `max_score = 0` do not affect the result. -/
theorem compute_score_positive_denominator (lr : LayerResult)
    (h : ∀ m ∈ lr.metrics, 0 ≤ m.score ∧ m.score ≤ m.max_score) :
    lr.compute_score.overall_score =
      if 0 < (((lr.metrics.filter fun m => decide (0 < m.max_score)).map
                MetricResult.max_score).sum) then
        100 * (((lr.metrics.filter fun m => decide (0 < m.max_score)).map
                MetricResult.score).sum)
          / (((lr.metrics.filter fun m => decide (0 < m.max_score)).map
                MetricResult.max_score).sum)
      else 0 := by
  obtain ⟨hs, hm⟩ := sums_restrict_to_positive lr.metrics h
  rw [hs, hm]
  unfold LayerResult.compute_score
  by_cases he : lr.metrics.isEmpty
  · have : lr.metrics = [] := List.isEmpty_iff.mp he
    simp [he, this]
  · simp only [he, Bool.false_eq_true, if_false]
    by_cases hpos : 0 < (lr.metrics.map MetricResult.max_score).sum
    · simp only [hpos, if_true]
      ring
    · simp [hpos]

/-- C1 witness: a concrete layer result with one scored metric and one
`max_score = 0` sentinel metric. -/
theorem compute_score_positive_denominator_witness :
    ({ layer := "L1", skill_name := "s",
       metrics := [⟨"a", 5, 10, "", true⟩, ⟨"b", 0, 0, "", true⟩] } :
        LayerResult).compute_score.overall_score = 50 := by
  rw [compute_score_positive_denominator _ (by intro m hm; fin_cases hm <;> norm_num)]
  norm_num [List.filter]

/-! ## Aggregation (`scripts/score_utils.py`; `weighted_score` is duplicated
verbatim in `scripts/reporter.py`) -/

/-- `DEFAULT_LAYER_WEIGHTS` from `scripts/eval_config.py`. -/
def DEFAULT_LAYER_WEIGHTS : List (String × ℚ) :=
  [("L1", 20/100), ("L2", 15/100), ("L3", 15/100),
   ("L4", 15/100), ("L5", 25/100), ("L6", 10/100)]

/-- `weights = layer_weights or DEFAULT_LAYER_WEIGHTS`: Python `or` falls back
to the defaults when the argument is `None` **or** an empty dict (both falsy). -/
def effective_weights (layer_weights : Option (List (String × ℚ))) :
    List (String × ℚ) :=
  match layer_weights with
  | none => DEFAULT_LAYER_WEIGHTS
  | some ws => if ws.isEmpty then DEFAULT_LAYER_WEIGHTS else ws

/-- `sorted(lid for lid in layer_results.keys() if lid not in weights)`. -/
def missing_weight_ids (layer_results : List (String × LayerResult))
    (weights : List (String × ℚ)) : List String :=
  pySorted ((layer_results.map Prod.fst).filter
    (fun lid => (weights.lookup lid).isNone))

/-- The `total_weight` accumulated by the loop in `weighted_score`. -/
def total_weight_of (layer_results : List (String × LayerResult))
    (weights : List (String × ℚ)) : ℚ :=
  (layer_results.map (fun p => (weights.lookup p.1).getD 0)).sum

/-- The `weighted_sum` accumulated by the loop in `weighted_score`. -/
def weighted_sum_of (layer_results : List (String × LayerResult))
    (weights : List (String × ℚ)) : ℚ :=
  (layer_results.map (fun p => p.2.overall_score * (weights.lookup p.1).getD 0)).sum

/-- `weighted_score` from `scripts/score_utils.py` (identical copy in
`scripts/reporter.py`); `raise ValueError(...)` is modelled as `.error`. -/
def weighted_score (layer_results : List (String × LayerResult))
    (layer_weights : Option (List (String × ℚ))) : Except String ℚ :=
  let weights := effective_weights layer_weights
  let missing := missing_weight_ids layer_results weights
  if missing.isEmpty then
    .ok (if 0 < total_weight_of layer_results weights then
          weighted_sum_of layer_results weights / total_weight_of layer_results weights
        else 0)
  else
    .error ("Missing layer weights for: " ++ String.intercalate ", " missing)

theorem effective_weights_of_ne_nil (ws : List (String × ℚ)) (h : ws ≠ []) :
    effective_weights (some ws) = ws := by
  simp [effective_weights, List.isEmpty_iff, h]

/-- C3 counterexample: the claim quantifies over every weights argument, but
for the empty dict Python's `layer_weights or DEFAULT_LAYER_WEIGHTS` fallback
kicks in: `weighted_score({"L1": …}, {})` returns the layer's score judged
against the default weights instead of raising a configuration error naming
`L1` (which has no entry in the passed weights). -/
theorem weighted_score_empty_dict_counterexample :
    weighted_score [("L1", { layer := "L1", skill_name := "s", overall_score := 80 })]
        (some []) = .ok 80 := by
  have h1 : missing_weight_ids
      [("L1", { layer := "L1", skill_name := "s", overall_score := 80 })]
      DEFAULT_LAYER_WEIGHTS = [] := by decide
  simp only [weighted_score, effective_weights, List.isEmpty_nil, if_true, h1]
  norm_num [total_weight_of, weighted_sum_of, DEFAULT_LAYER_WEIGHTS, List.lookup]

/-- C3 (amended): with an explicitly passed **non-empty** weight dict,
`weighted_score`
raises a `ValueError` naming every layer ID of the result set that lacks a
weight entry whenever one exists; otherwise it returns
`Σ(overall_score × weight) / Σweight` over the layers present, returning `0`
(not raising) when the total weight is `0`, in particular on an empty result
set. -/
theorem weighted_score_spec (layer_results : List (String × LayerResult))
    (ws : List (String × ℚ)) (hws : ws ≠ []) :
    (missing_weight_ids layer_results ws ≠ [] →
      weighted_score layer_results (some ws) =
        .error ("Missing layer weights for: " ++
          String.intercalate ", " (missing_weight_ids layer_results ws)) ∧
      ∀ lid ∈ layer_results.map Prod.fst, (ws.lookup lid).isNone →
        lid ∈ missing_weight_ids layer_results ws) ∧
    (missing_weight_ids layer_results ws = [] →
      weighted_score layer_results (some ws) =
        .ok (if 0 < total_weight_of layer_results ws then
              weighted_sum_of layer_results ws / total_weight_of layer_results ws
            else 0)) ∧
    (layer_results = [] → weighted_score layer_results (some ws) = .ok 0) := by
  have heff := effective_weights_of_ne_nil ws hws
  refine ⟨fun hmiss => ⟨?_, ?_⟩, fun hmiss => ?_, fun hempty => ?_⟩
  · simp [weighted_score, heff, List.isEmpty_iff, hmiss]
  · intro lid hmem hnone
    simp only [missing_weight_ids, mem_pySorted, List.mem_filter]
    exact ⟨hmem, by simp [hnone]⟩
  · simp [weighted_score, heff, List.isEmpty_iff, hmiss]
  · subst hempty
    simp [weighted_score, heff, missing_weight_ids, pySorted,
      total_weight_of, weighted_sum_of]

/-- C3 witness: a result set containing layer `L7`, which has no entry in the
passed weights, makes `weighted_score` raise naming `L7`. -/
theorem weighted_score_spec_witness :
    weighted_score
      [("L1", { layer := "L1", skill_name := "s" }),
       ("L7", { layer := "L7", skill_name := "s" })]
      (some [("L1", 1)]) = .error "Missing layer weights for: L7" := by
  have h := ((weighted_score_spec
      [("L1", { layer := "L1", skill_name := "s" }),
       ("L7", { layer := "L7", skill_name := "s" })]
      [("L1", 1)] (by simp)).1 (by decide)).1
  rw [h]
  congr 1

/-- C10 counterexample: weight entries for layers absent from the result set
are *not* always inert. With `layer_results = {"L1": …}`, passing an empty
weights dict falls back (via Python `or`) to the defaults and returns `100`,
but adding a single entry for the absent layer `L7` yields a non-empty dict
that is used as-is, and the call now raises because `L1` has no weight. -/
theorem weighted_score_absent_entry_counterexample :
    weighted_score [("L1", { layer := "L1", skill_name := "s", overall_score := 100 })]
        (some []) = .ok 100 ∧
    weighted_score [("L1", { layer := "L1", skill_name := "s", overall_score := 100 })]
        (some [("L7", 1)]) = .error "Missing layer weights for: L1" := by
  constructor
  · have h1 : missing_weight_ids
        [("L1", { layer := "L1", skill_name := "s", overall_score := 100 })]
        DEFAULT_LAYER_WEIGHTS = [] := by decide
    simp only [weighted_score, effective_weights, List.isEmpty_nil, if_true, h1]
    norm_num [total_weight_of, weighted_sum_of, DEFAULT_LAYER_WEIGHTS, List.lookup]
  · have h2 : missing_weight_ids
        [("L1", { layer := "L1", skill_name := "s", overall_score := 100 })]
        [("L7", (1 : ℚ))] = ["L1"] := by decide
    simp only [weighted_score, effective_weights]
    norm_num [h2]
    decide

/-- C10 (amended): `weighted_score` consults only the weight entries of layers
present in `layer_results`; for two *non-empty* weight dicts whose lookups
agree on every present layer, the outcome (value or error) is identical, so
adding or removing entries for absent layers changes nothing — except through
Python's falsy-dict fallback: an empty weights dict is replaced by the default
weights, so adding the first entry or removing the last one may change the
result (see the counterexample). -/
theorem weighted_score_ignores_absent_layers
    (layer_results : List (String × LayerResult)) (w1 w2 : List (String × ℚ))
    (h1 : w1 ≠ []) (h2 : w2 ≠ [])
    (hagree : ∀ lid ∈ layer_results.map Prod.fst, w1.lookup lid = w2.lookup lid) :
    weighted_score layer_results (some w1) = weighted_score layer_results (some w2) := by
  have heff1 := effective_weights_of_ne_nil w1 h1
  have heff2 := effective_weights_of_ne_nil w2 h2
  have hmiss : missing_weight_ids layer_results w1 = missing_weight_ids layer_results w2 := by
    unfold missing_weight_ids
    congr 1
    apply List.filter_congr
    intro lid hmem
    rw [hagree lid hmem]
  have htot : total_weight_of layer_results w1 = total_weight_of layer_results w2 := by
    unfold total_weight_of
    congr 1
    apply List.map_congr_left
    intro p hp
    rw [hagree p.1 (List.mem_map_of_mem Prod.fst hp)]
  have hsum : weighted_sum_of layer_results w1 = weighted_sum_of layer_results w2 := by
    unfold weighted_sum_of
    congr 1
    apply List.map_congr_left
    intro p hp
    rw [hagree p.1 (List.mem_map_of_mem Prod.fst hp)]
  simp only [weighted_score, heff1, heff2, hmiss, htot, hsum]

/-- C10 amended-theorem witness: dropping the `L7` entry (absent from the
result set) from the weights leaves the outcome unchanged. -/
theorem weighted_score_ignores_absent_layers_witness :
    weighted_score [("L1", { layer := "L1", skill_name := "s", overall_score := 100 })]
        (some [("L1", 1), ("L7", 3)]) =
      weighted_score [("L1", { layer := "L1", skill_name := "s", overall_score := 100 })]
        (some [("L1", 1)]) :=
  weighted_score_ignores_absent_layers _ _ _ (by simp) (by simp) (by decide)

/-! ## Orchestrator (`scripts/orchestrator.py`) -/

/-- The type name and message of a raised Python exception. -/
structure ExcInfo where
  typeName : String
  message : String
deriving Repr, DecidableEq

/-- `f"{type(exc).__name__}: {exc}"`. -/
def excDetail (exc : ExcInfo) : String := exc.typeName ++ ": " ++ exc.message

/-- `LayerEvaluationError` from `scripts/orchestrator.py`. -/
structure LayerEvaluationError where
  skill_name : String
  layer_id : String
  original : ExcInfo
deriving Repr, DecidableEq

/-- A discovered skill; only its name is consulted by the orchestrator. -/
structure Skill where
  name : String
deriving Repr, DecidableEq

/-- One layer evaluation `LAYERS[lid](skill, all_skills=…, benchmarks_dir=…)`:
the run-constant `all_skills` and `benchmarks_dir` arguments are absorbed into
the function, and a raised exception is an `.error`. Every worker process runs
this same deterministic function on its task. -/
def LayerEval := String → Skill → Except ExcInfo LayerResult

/-- `_error_layer_result` from `scripts/orchestrator.py`. -/
def error_layer_result (layer_id skill_name : String) (exc : ExcInfo) : LayerResult :=
  let detail := excDetail exc
  let lr : LayerResult :=
    { layer := layer_id, skill_name := skill_name,
      metrics := [{ name := "runtime_error", score := 0, max_score := 1,
                    details := detail, passed := false }] }
  let lr := lr.compute_score
  { lr with recommendations := lr.recommendations ++ ["runtime_error: " ++ detail] }

/-- The value stored for one layer by `_evaluate_one_skill` when fail-fast is
off: the evaluated result, or the synthetic error result when evaluation
raises. -/
def layer_outcome (evalLayer : LayerEval) (skill : Skill) (lid : String) : LayerResult :=
  match evalLayer lid skill with
  | .ok lr => lr
  | .error exc => error_layer_result lid skill.name exc

/-- The `for lid in layer_ids` loop of `_evaluate_one_skill` (the warning
`print` to stderr is I/O only and not modelled). -/
def evaluate_layers_loop (evalLayer : LayerEval) (skill : Skill) (fail_fast : Bool) :
    List String → List (String × LayerResult) →
    Except LayerEvaluationError (List (String × LayerResult))
  | [], layer_results => .ok layer_results
  | lid :: rest, layer_results =>
    match evalLayer lid skill with
    | .ok lr =>
        evaluate_layers_loop evalLayer skill fail_fast rest
          (dictInsert layer_results lid lr)
    | .error exc =>
        if fail_fast then .error ⟨skill.name, lid, exc⟩
        else
          evaluate_layers_loop evalLayer skill fail_fast rest
            (dictInsert layer_results lid (error_layer_result lid skill.name exc))

/-- `_evaluate_one_skill` from `scripts/orchestrator.py`. -/
def evaluate_one_skill (evalLayer : LayerEval) (fail_fast : Bool) (skill : Skill)
    (layer_ids : List String) :
    Except LayerEvaluationError (String × List (String × LayerResult)) :=
  match evaluate_layers_loop evalLayer skill fail_fast layer_ids [] with
  | .error e => .error e
  | .ok layer_results => .ok (skill.name, layer_results)

/-- The `for skill in skills` loop of `_collect_results_sequential`. -/
def collect_seq_loop
    (f : Skill → Except LayerEvaluationError (String × List (String × LayerResult))) :
    List Skill → List (String × List (String × LayerResult)) →
    Except LayerEvaluationError (List (String × List (String × LayerResult)))
  | [], results => .ok results
  | skill :: rest, results =>
    match f skill with
    | .error e => .error e
    | .ok (name, layer_results) =>
        collect_seq_loop f rest (dictInsert results name layer_results)

/-- `_collect_results_sequential` from `scripts/orchestrator.py`. -/
def collect_results_sequential (evalLayer : LayerEval) (skills : List Skill)
    (layer_ids : List String) (fail_fast : Bool) :
    Except LayerEvaluationError (List (String × List (String × LayerResult))) :=
  collect_seq_loop (fun s => evaluate_one_skill evalLayer fail_fast s layer_ids) skills []

/-- Iterating `ProcessPoolExecutor.map(f, tasks)`: results are yielded in task
order, and the first raised exception propagates when its slot is reached. -/
def pool_map (f : α → Except ε β) : List α → Except ε (List β)
  | [] => .ok []
  | a :: rest =>
    match f a with
    | .error e => .error e
    | .ok b =>
      match pool_map f rest with
      | .error e => .error e
      | .ok bs => .ok (b :: bs)

/-- `_collect_results_parallel` from `scripts/orchestrator.py`: each yielded
`(name, layer_results)` pair is stored in the results dict in yield order.
The task list built by `run()` is `skills` in discovery order. -/
def collect_results_parallel (evalLayer : LayerEval) (tasks : List Skill)
    (layer_ids : List String) (fail_fast : Bool) :
    Except LayerEvaluationError (List (String × List (String × LayerResult))) :=
  match pool_map (fun s => evaluate_one_skill evalLayer fail_fast s layer_ids) tasks with
  | .error e => .error e
  | .ok pairs => .ok (pairs.foldl (fun results p => dictInsert results p.1 p.2) [])

theorem collect_seq_loop_eq_pool_map
    (f : Skill → Except LayerEvaluationError (String × List (String × LayerResult)))
    (l : List Skill) (acc : List (String × List (String × LayerResult))) :
    collect_seq_loop f l acc =
      match pool_map f l with
      | .error e => .error e
      | .ok pairs => .ok (pairs.foldl (fun results p => dictInsert results p.1 p.2) acc) := by
  induction l generalizing acc with
  | nil => simp [collect_seq_loop, pool_map]
  | cons s rest ih =>
      cases hf : f s with
      | error e => simp [collect_seq_loop, pool_map, hf]
      | ok p =>
          obtain ⟨name, lrs⟩ := p
          simp only [collect_seq_loop, pool_map, hf]
          rw [ih]
          cases pool_map f rest <;> simp

/-- C2: for a fixed package list, layer selection and (deterministic) per-layer
evaluation function, the parallel collection path computes exactly the same
results mapping as the sequential path — worker count `1` versus `N ≥ 2`
changes scheduling only, not the recorded name → per-layer results mapping
(layer scores, metric names, scores and details included, since the whole
`LayerResult` values are equal). -/
theorem parallel_matches_sequential (evalLayer : LayerEval) (skills : List Skill)
    (layer_ids : List String) (fail_fast : Bool) :
    collect_results_parallel evalLayer skills layer_ids fail_fast =
      collect_results_sequential evalLayer skills layer_ids fail_fast := by
  rw [collect_results_sequential, collect_seq_loop_eq_pool_map, collect_results_parallel]

/-- With fail-fast off, the layer loop always succeeds and records, for every
selected layer, exactly its (deterministic) outcome; other keys keep their
accumulator value. -/
theorem evaluate_layers_loop_lookup (evalLayer : LayerEval) (skill : Skill)
    (lids : List String) (acc : List (String × LayerResult)) :
    ∃ lrs, evaluate_layers_loop evalLayer skill false lids acc = .ok lrs ∧
      ∀ l : String, lrs.lookup l =
        if l ∈ lids then some (layer_outcome evalLayer skill l) else acc.lookup l := by
  induction lids generalizing acc with
  | nil =>
      exact ⟨acc, rfl, fun l => by simp⟩
  | cons lid rest ih =>
      cases hev : evalLayer lid skill with
      | ok lr =>
          obtain ⟨lrs, hok, hlook⟩ := ih (dictInsert acc lid lr)
          refine ⟨lrs, ?_, ?_⟩
          · simp only [evaluate_layers_loop, hev, hok]
          · intro l
            rw [hlook l]
            by_cases hr : l ∈ rest
            · simp [hr]
            · by_cases hl : l = lid
              · subst hl
                simp [hr, lookup_dictInsert_self, layer_outcome, hev]
              · simp [hr, hl, lookup_dictInsert_ne acc lid l lr hl]
      | error exc =>
          obtain ⟨lrs, hok, hlook⟩ :=
            ih (dictInsert acc lid (error_layer_result lid skill.name exc))
          refine ⟨lrs, ?_, ?_⟩
          · simp only [evaluate_layers_loop, hev, Bool.false_eq_true, if_false, hok]
          · intro l
            rw [hlook l]
            by_cases hr : l ∈ rest
            · simp [hr]
            · by_cases hl : l = lid
              · subst hl
                simp [hr, lookup_dictInsert_self, layer_outcome, hev]
              · simp [hr, hl, lookup_dictInsert_ne acc lid l _ hl]

/-- With fail-fast off, `_evaluate_one_skill` never propagates an error. -/
theorem evaluate_one_skill_ok (evalLayer : LayerEval) (skill : Skill)
    (layer_ids : List String) :
    ∃ lrs, evaluate_one_skill evalLayer false skill layer_ids = .ok (skill.name, lrs) ∧
      ∀ l : String, lrs.lookup l =
        if l ∈ layer_ids then some (layer_outcome evalLayer skill l) else none := by
  obtain ⟨lrs, hok, hlook⟩ := evaluate_layers_loop_lookup evalLayer skill layer_ids []
  refine ⟨lrs, ?_, ?_⟩
  · simp only [evaluate_one_skill, hok]
  · intro l
    rw [hlook l]
    by_cases hr : l ∈ layer_ids <;> simp [hr, List.lookup]

theorem lookup_dictInsert_isSome (d : List (String × β)) (k k' : String) (v : β)
    (h : (d.lookup k').isSome ∨ k' = k) : ((dictInsert d k v).lookup k').isSome := by
  by_cases hk : k' = k
  · subst hk
    simp [lookup_dictInsert_self]
  · rw [lookup_dictInsert_ne d k k' v hk]
    rcases h with h | h
    · exact h
    · exact absurd h hk

/-- The sequential collection loop succeeds and keeps an entry for every
processed skill whenever the per-skill function always succeeds with the
skill's own name as key. -/
theorem collect_seq_loop_total
    (f : Skill → Except LayerEvaluationError (String × List (String × LayerResult)))
    (hf : ∀ s, ∃ r, f s = .ok (s.name, r)) (skills : List Skill)
    (acc : List (String × List (String × LayerResult))) :
    ∃ res, collect_seq_loop f skills acc = .ok res ∧
      (∀ s ∈ skills, (res.lookup s.name).isSome) ∧
      (∀ k : String, (acc.lookup k).isSome → (res.lookup k).isSome) := by
  induction skills generalizing acc with
  | nil => exact ⟨acc, rfl, by simp, fun _ h => h⟩
  | cons s rest ih =>
      obtain ⟨r, hr⟩ := hf s
      obtain ⟨res, hok, hmem, hkeep⟩ := ih (dictInsert acc s.name r)
      refine ⟨res, by simp only [collect_seq_loop, hr, hok], ?_, ?_⟩
      · intro s' hs'
        rcases List.mem_cons.mp hs' with h | h
        · subst h
          exact hkeep s'.name (lookup_dictInsert_isSome acc s'.name s'.name r (Or.inr rfl))
        · exact hmem s' h
      · intro k hk
        exact hkeep k (lookup_dictInsert_isSome acc s.name k r (Or.inl hk))

/-- C4: when fail-fast is off and evaluating layer `lid` of a package raises
`exc`, `_evaluate_one_skill` still succeeds and records for that layer the
synthetic `_error_layer_result` — `overall_score = 0`, exactly one metric named
`runtime_error` whose details carry the exception's type and message, and
exactly one recommendation echoing that detail — while every other selected
layer keeps its evaluated result, and the sequential collection over any
package list still produces an entry for every package. -/
theorem error_isolated_into_synthetic_result
    (evalLayer : LayerEval) (skills : List Skill) (skill : Skill)
    (layer_ids : List String) (lid : String) (exc : ExcInfo)
    (hmem : lid ∈ layer_ids) (herr : evalLayer lid skill = .error exc) :
    ∃ lrs, evaluate_one_skill evalLayer false skill layer_ids = .ok (skill.name, lrs) ∧
      lrs.lookup lid = some (error_layer_result lid skill.name exc) ∧
      (∀ l ∈ layer_ids, ∀ r, evalLayer l skill = .ok r → lrs.lookup l = some r) ∧
      (∀ l ∈ layer_ids, (lrs.lookup l).isSome) ∧
      (error_layer_result lid skill.name exc).overall_score = 0 ∧
      (error_layer_result lid skill.name exc).metrics =
        [{ name := "runtime_error", score := 0, max_score := 1,
           details := exc.typeName ++ ": " ++ exc.message, passed := false }] ∧
      (error_layer_result lid skill.name exc).recommendations =
        ["runtime_error: " ++ (exc.typeName ++ ": " ++ exc.message)] ∧
      ∃ res, collect_results_sequential evalLayer skills layer_ids false = .ok res ∧
        ∀ s ∈ skills, (res.lookup s.name).isSome := by
  obtain ⟨lrs, hok, hlook⟩ := evaluate_one_skill_ok evalLayer skill layer_ids
  refine ⟨lrs, hok, ?_, ?_, ?_, ?_, ?_, ?_, ?_⟩
  · rw [hlook lid]
    simp [hmem, layer_outcome, herr]
  · intro l hl r hr
    rw [hlook l]
    simp [hl, layer_outcome, hr]
  · intro l hl
    rw [hlook l]
    simp [hl]
  · simp [error_layer_result, LayerResult.compute_score]
  · simp [error_layer_result, LayerResult.compute_score, excDetail]
  · simp [error_layer_result, LayerResult.compute_score, excDetail]
  · obtain ⟨res, hres, hall, _⟩ := collect_seq_loop_total
      (fun s => evaluate_one_skill evalLayer false s layer_ids)
      (fun s => by
        obtain ⟨r, hr, _⟩ := evaluate_one_skill_ok evalLayer s layer_ids
        exact ⟨r, hr⟩)
      skills []
    exact ⟨res, hres, hall⟩

/-- C4 witness: a two-layer run where `L2` raises `ValueError: boom` still
completes. -/
theorem error_isolated_into_synthetic_result_witness :
    (evaluate_one_skill
      (fun lid _ =>
        if lid = "L2" then .error ⟨"ValueError", "boom"⟩
        else .ok { layer := lid, skill_name := "a" })
      false ⟨"a"⟩ ["L1", "L2"]).isOk = true := by
  obtain ⟨lrs, hok, -⟩ := error_isolated_into_synthetic_result
    (fun lid _ =>
      if lid = "L2" then .error ⟨"ValueError", "boom"⟩
      else .ok { layer := lid, skill_name := "a" })
    [⟨"a"⟩] ⟨"a"⟩ ["L1", "L2"] "L2" ⟨"ValueError", "boom"⟩
    (by simp) (by simp)
  rw [hok]
  rfl

/-! ## History / diff (`scripts/history.py`) -/

/-- One `skills[name]` entry of a snapshot: `{"weighted": …, "layers": …}`. -/
structure SkillEntry where
  weighted : ℚ
  layers : List (String × ℚ)
deriving Repr, DecidableEq

/-- A stored snapshot, restricted to the fields `compute_diff` reads (the
timestamp is never consulted by the diff; absent fields default like
`dict.get`). -/
structure Snapshot where
  evaluator_version : Option String := none
  skills : List (String × SkillEntry) := []
  weighted_average : ℚ := 0
  skill_count : ℚ := 0
deriving Repr, DecidableEq

/-- One `{"before": …, "after": …, "delta": …}` record of a diff. -/
structure DiffEntry where
  before : ℚ
  after : ℚ
  delta : ℚ
deriving Repr, DecidableEq

/-- `{"before": b, "after": a, "delta": round(a - b, 1)}`. -/
def diff_entry (before after : ℚ) : DiffEntry :=
  ⟨before, after, pyRound1 (after - before)⟩

/-- The per-skill diff record (`weighted` plus per-layer entries). -/
structure SkillDiff where
  weighted : DiffEntry
  layers : List (String × DiffEntry)
deriving Repr, DecidableEq

/-- `set(list(curr_layers.keys()) + list(base_layers.keys()))`. -/
def layer_union (c b : SkillEntry) : List String :=
  (c.layers.map Prod.fst ++ b.layers.map Prod.fst).dedup

/-- The `skill_diff` computed in the name-in-both branch of `compute_diff`,
with `curr_layers.get(lid, 0)` / `base_layers.get(lid, 0)` defaults. -/
def skill_diff (c b : SkillEntry) : SkillDiff :=
  { weighted := diff_entry b.weighted c.weighted,
    layers := (layer_union c b).map fun lid =>
      (lid, diff_entry ((b.layers.lookup lid).getD 0) ((c.layers.lookup lid).getD 0)) }

/-- `sorted(set(list(curr_skills.keys()) + list(base_skills.keys())))`. -/
def all_names (current baseline : Snapshot) : List String :=
  pySorted ((current.skills.map Prod.fst ++ baseline.skills.map Prod.fst).dedup)

/-- The value returned by `compute_diff`. -/
structure DiffResult where
  weighted_average : DiffEntry
  skill_count : DiffEntry
  skills : List (String × SkillDiff)
  improved : List String
  regressed : List String
  new_skills : List String
  removed_skills : List String
  evaluator_before : Option String
  evaluator_after : Option String
  evaluator_changed : Bool
deriving Repr, DecidableEq

/-- `compute_diff` from `scripts/history.py`. The Python `for name in
sorted(all_names)` loop appends each name to at most one output list per
criterion; the loop is modelled as one traversal of the sorted name list per
output field, with identical per-name branching. -/
def compute_diff (current baseline : Snapshot) : DiffResult :=
  let names := all_names current baseline
  { weighted_average := diff_entry baseline.weighted_average current.weighted_average,
    skill_count := diff_entry baseline.skill_count current.skill_count,
    skills := names.filterMap fun n =>
      match current.skills.lookup n, baseline.skills.lookup n with
      | some c, some b => some (n, skill_diff c b)
      | _, _ => none,
    improved := names.filter fun n =>
      match current.skills.lookup n, baseline.skills.lookup n with
      | some c, some b => decide (0 < (skill_diff c b).weighted.delta)
      | _, _ => false,
    regressed := names.filter fun n =>
      match current.skills.lookup n, baseline.skills.lookup n with
      | some c, some b => decide ((skill_diff c b).weighted.delta < 0)
      | _, _ => false,
    new_skills := names.filter fun n =>
      (current.skills.lookup n).isSome && (baseline.skills.lookup n).isNone,
    removed_skills := names.filter fun n =>
      (current.skills.lookup n).isNone && (baseline.skills.lookup n).isSome,
    evaluator_before := baseline.evaluator_version,
    evaluator_after := current.evaluator_version,
    evaluator_changed := baseline.evaluator_version != current.evaluator_version }

theorem mem_all_names (current baseline : Snapshot) (n : String) :
    n ∈ all_names current baseline ↔
      n ∈ current.skills.map Prod.fst ∨ n ∈ baseline.skills.map Prod.fst := by
  rw [all_names, mem_pySorted, List.mem_dedup, List.mem_append]

theorem lookup_map_keyed {γ : Type _} (g : String → γ) (l : List String)
    (name : String) (hmem : name ∈ l) :
    (l.map fun n => (n, g n)).lookup name = some (g name) := by
  induction l with
  | nil => cases hmem
  | cons a rest ih =>
      by_cases ha : name = a
      · subst ha
        simp [List.lookup]
      · have h1 : (name == a) = false := beq_false_of_ne ha
        have : name ∈ rest := (List.mem_cons.mp hmem).resolve_left ha
        simp [List.lookup, h1, ih this]

theorem lookup_filterMap_keyed {γ : Type _} (f : String → Option (String × γ))
    (hkey : ∀ n p, f n = some p → p.1 = n) (l : List String) (name : String)
    (v : String × γ) (hmem : name ∈ l) (hf : f name = some v) :
    (l.filterMap f).lookup name = some v.2 := by
  induction l with
  | nil => cases hmem
  | cons a rest ih =>
      by_cases ha : name = a
      · subst ha
        rw [List.filterMap_cons, hf]
        have := hkey name v hf
        simp [List.lookup, this]
      · have hrest : name ∈ rest := (List.mem_cons.mp hmem).resolve_left ha
        rw [List.filterMap_cons]
        cases hfa : f a with
        | none => exact ih hrest
        | some q =>
            have hq : q.1 = a := hkey a q hfa
            have h1 : (name == q.1) = false := by
              rw [hq]; exact beq_false_of_ne ha
            simp [List.lookup, h1, ih hrest]

/-- Sign of the recorded delta against the raw scores, under the one-decimal
invariant `build_snapshot` guarantees for stored `weighted` values. -/
theorem pyRound1_tenth_sign (kc kb : ℤ) :
    (0 < pyRound1 ((kc : ℚ) / 10 - (kb : ℚ) / 10) ↔ (kb : ℚ) / 10 < (kc : ℚ) / 10) ∧
    (pyRound1 ((kc : ℚ) / 10 - (kb : ℚ) / 10) < 0 ↔ (kc : ℚ) / 10 < (kb : ℚ) / 10) := by
  have hdiff : (kc : ℚ) / 10 - (kb : ℚ) / 10 = ((kc - kb : ℤ) : ℚ) / 10 := by
    push_cast
    ring
  rw [hdiff, pyRound1_tenth]
  constructor
  · rw [div_lt_div_iff_of_pos_right (by norm_num : (0:ℚ) < 10)]
    constructor
    · intro h
      have : (0 : ℚ) < (kc - kb : ℤ) := by
        by_contra hc
        exact absurd h (not_lt.mpr (div_nonpos_of_nonpos_of_nonneg (not_lt.mp hc) (by norm_num)))
      push_cast at this ⊢
      linarith
    · intro h
      apply div_pos ?_ (by norm_num)
      push_cast
      linarith
  · rw [div_lt_div_iff_of_pos_right (by norm_num : (0:ℚ) < 10)]
    constructor
    · intro h
      have : ((kc - kb : ℤ) : ℚ) < 0 := by
        by_contra hc
        exact absurd h (not_lt.mpr (div_nonneg (not_lt.mp hc) (by norm_num)))
      push_cast at this ⊢
      linarith
    · intro h
      apply div_neg_of_neg_of_pos ?_ (by norm_num)
      push_cast
      linarith

/-- C5: `compute_diff` classifies each name of either snapshot as `new`
exactly when it is only in the current snapshot and `removed` exactly when it
is only in the baseline; a name in both gets a recorded before/after/delta for
the weighted score and for every layer present in either entry, and lands in
`improved` exactly when its current weighted score exceeds the baseline one
(equivalently the recorded delta is positive) and in `regressed` exactly when
it is lower, the equivalence holding under the one-decimal invariant of stored
snapshot scores. -/
theorem compute_diff_classification (current baseline : Snapshot) (name : String) :
    (name ∈ (compute_diff current baseline).new_skills ↔
      name ∈ current.skills.map Prod.fst ∧ ¬ name ∈ baseline.skills.map Prod.fst) ∧
    (name ∈ (compute_diff current baseline).removed_skills ↔
      ¬ name ∈ current.skills.map Prod.fst ∧ name ∈ baseline.skills.map Prod.fst) ∧
    (∀ c b : SkillEntry, current.skills.lookup name = some c →
      baseline.skills.lookup name = some b →
      (compute_diff current baseline).skills.lookup name = some (skill_diff c b) ∧
      (skill_diff c b).weighted =
        ⟨b.weighted, c.weighted, pyRound1 (c.weighted - b.weighted)⟩ ∧
      (∀ lid, (lid ∈ c.layers.map Prod.fst ∨ lid ∈ b.layers.map Prod.fst) →
        (skill_diff c b).layers.lookup lid =
          some ⟨(b.layers.lookup lid).getD 0, (c.layers.lookup lid).getD 0,
                pyRound1 ((c.layers.lookup lid).getD 0 - (b.layers.lookup lid).getD 0)⟩) ∧
      (∀ kc kb : ℤ, c.weighted = (kc : ℚ) / 10 → b.weighted = (kb : ℚ) / 10 →
        (name ∈ (compute_diff current baseline).improved ↔ b.weighted < c.weighted) ∧
        (name ∈ (compute_diff current baseline).regressed ↔ c.weighted < b.weighted))) := by
  refine ⟨?_, ?_, ?_⟩
  · simp only [compute_diff, List.mem_filter, Bool.and_eq_true, Option.isSome_iff_exists,
      Option.isNone_iff_eq_none, mem_all_names]
    constructor
    · rintro ⟨-, ⟨c, hc⟩, hn⟩
      refine ⟨?_, ?_⟩
      · rw [← lookup_isSome_iff_mem, hc]; rfl
      · rw [← lookup_isSome_iff_mem, hn]; simp
    · rintro ⟨hc, hn⟩
      have hsome := (lookup_isSome_iff_mem current.skills name).mpr hc
      have hnone : baseline.skills.lookup name = none := by
        cases h : baseline.skills.lookup name with
        | none => rfl
        | some b =>
            exact absurd ((lookup_isSome_iff_mem baseline.skills name).mp (by rw [h]; rfl)) hn
      exact ⟨Or.inl hc, Option.isSome_iff_exists.mp hsome, hnone⟩
  · simp only [compute_diff, List.mem_filter, Bool.and_eq_true, Option.isSome_iff_exists,
      Option.isNone_iff_eq_none, mem_all_names]
    constructor
    · rintro ⟨-, hn, ⟨b, hb⟩⟩
      refine ⟨?_, ?_⟩
      · intro hc
        have := (lookup_isSome_iff_mem current.skills name).mpr hc
        rw [hn] at this
        cases this
      · rw [← lookup_isSome_iff_mem, hb]; rfl
    · rintro ⟨hc, hb⟩
      have hsome := (lookup_isSome_iff_mem baseline.skills name).mpr hb
      have hnone : current.skills.lookup name = none := by
        cases h : current.skills.lookup name with
        | none => rfl
        | some c =>
            exact absurd ((lookup_isSome_iff_mem current.skills name).mp (by rw [h]; rfl)) hc
      exact ⟨Or.inr hb, hnone, Option.isSome_iff_exists.mp hsome⟩
  · intro c b hc hb
    have hmemn : name ∈ all_names current baseline := by
      rw [mem_all_names]
      exact Or.inl ((lookup_isSome_iff_mem current.skills name).mp (by rw [hc]; rfl))
    refine ⟨?_, rfl, ?_, ?_⟩
    · exact lookup_filterMap_keyed _
        (fun n p hp => by
          revert hp
          cases current.skills.lookup n <;> cases baseline.skills.lookup n <;>
            simp
          rintro rfl
          rfl)
        (all_names current baseline) name (name, skill_diff c b) hmemn
        (by rw [hc, hb])
    · intro lid hlid
      have hmem : lid ∈ layer_union c b := by
        rw [layer_union, List.mem_dedup, List.mem_append]
        exact hlid
      exact lookup_map_keyed _ (layer_union c b) lid hmem
    · intro kc kb hkc hkb
      have hsign := pyRound1_tenth_sign kc kb
      constructor
      · simp only [compute_diff, List.mem_filter, hc, hb, decide_eq_true_eq]
        rw [skill_diff]
        simp only [diff_entry]
        rw [hkc, hkb]
        constructor
        · rintro ⟨-, h⟩
          exact hsign.1.mp h
        · intro h
          exact ⟨hmemn, hsign.1.mpr h⟩
      · simp only [compute_diff, List.mem_filter, hc, hb, decide_eq_true_eq]
        rw [skill_diff]
        simp only [diff_entry]
        rw [hkc, hkb]
        constructor
        · rintro ⟨-, h⟩
          exact hsign.2.mp h
        · intro h
          exact ⟨hmemn, hsign.2.mpr h⟩

/-- C5 witness: with current weighted score `8` against baseline `7`, package
`a` is classified as improved. -/
theorem compute_diff_classification_witness :
    ("a" ∈ (compute_diff
        { skills := [("a", ⟨8, [("L1", 80)]⟩)] }
        { skills := [("a", ⟨7, [("L1", 70)]⟩)] }).improved ↔ (7:ℚ) < 8) :=
  (((compute_diff_classification
      { skills := [("a", ⟨8, [("L1", 80)]⟩)] }
      { skills := [("a", ⟨7, [("L1", 70)]⟩)] } "a").2.2
      ⟨8, [("L1", 80)]⟩ ⟨7, [("L1", 70)]⟩ rfl rfl).2.2.2
      80 70 (by norm_num) (by norm_num)).1

/-- C9: diffing a snapshot against itself yields zero deltas for the summary
fields, zero deltas for every recorded skill and layer entry, an unchanged
evaluator version, and empty `improved`/`regressed`/`new_skills`/
`removed_skills` lists. -/
theorem compute_diff_self_zero (s : Snapshot) :
    (compute_diff s s).weighted_average.delta = 0 ∧
    (compute_diff s s).skill_count.delta = 0 ∧
    (compute_diff s s).evaluator_changed = false ∧
    (compute_diff s s).improved = [] ∧
    (compute_diff s s).regressed = [] ∧
    (compute_diff s s).new_skills = [] ∧
    (compute_diff s s).removed_skills = [] ∧
    ((compute_diff s s).skills.all fun p =>
      decide (p.2.weighted.delta = 0) &&
        p.2.layers.all fun q => decide (q.2.delta = 0)) = true := by
  refine ⟨?_, ?_, ?_, ?_, ?_, ?_, ?_, ?_⟩
  · simp [compute_diff, diff_entry, pyRound1_zero]
  · simp [compute_diff, diff_entry, pyRound1_zero]
  · simp [compute_diff]
  · rw [compute_diff]
    apply List.filter_eq_nil_iff.mpr
    intro n hn
    cases h : s.skills.lookup n <;>
      simp [h, skill_diff, diff_entry, pyRound1_zero]
  · rw [compute_diff]
    apply List.filter_eq_nil_iff.mpr
    intro n hn
    cases h : s.skills.lookup n <;>
      simp [h, skill_diff, diff_entry, pyRound1_zero]
  · rw [compute_diff]
    apply List.filter_eq_nil_iff.mpr
    intro n hn
    cases h : s.skills.lookup n <;> simp [h]
  · rw [compute_diff]
    apply List.filter_eq_nil_iff.mpr
    intro n hn
    cases h : s.skills.lookup n <;> simp [h]
  · rw [List.all_eq_true]
    intro p hp
    rw [compute_diff] at hp
    simp only [List.mem_filterMap] at hp
    obtain ⟨n, hn, hf⟩ := hp
    cases h : s.skills.lookup n with
    | none =>
        rw [h] at hf
        cases hf
    | some c =>
        rw [h] at hf
        cases hf
        simp only [skill_diff, diff_entry, sub_self, pyRound1_zero, Bool.and_eq_true,
          decide_eq_true_eq, List.all_eq_true]
        refine ⟨trivial, ?_⟩
        intro q hq
        obtain ⟨lid, hlid, rfl⟩ := List.mem_map.mp hq
        simp

/-! ## L2 activation (`scripts/evaluators/l2_activation.py`) -/

/-- `TriggerInfo` from `scripts/models.py`. -/
structure TriggerInfo where
  keywords : List String
  source : String
deriving Repr, DecidableEq

/-- The slice of `SkillMetadata` (from `scripts/models.py`) consulted by the
trigger-count check; the remaining fields are never read by it. -/
structure SkillMetadata where
  name : String := ""
  description : String := ""
  triggers : TriggerInfo
deriving Repr, DecidableEq

/-- `check_trigger_count` from `scripts/evaluators/l2_activation.py`. -/
def check_trigger_count (skill : SkillMetadata) : MetricResult :=
  let n := skill.triggers.keywords.length
  let sd : ℚ × String :=
    if n = 0 then (0, "트리거 없음")
    else if n ≤ 2 then (5, toString n ++ "개 (너무 적음)")
    else if n ≤ 7 then (10, toString n ++ "개")
    else if n ≤ 15 then (15, toString n ++ "개 (최적 범위)")
    else (10, toString n ++ "개 (너무 많음 — 초점 분산 우려)")
  { name := "trigger_count", score := sd.1, max_score := 15,
    details := "키워드 " ++ sd.2 ++ "; source=" ++ skill.triggers.source,
    passed := decide (0 < n) }

/-- C6: the trigger-count check always has `max_score = 15`, passes exactly
when at least one keyword exists, and scores by band: `0` keywords ⇒ `0`,
`1–2` ⇒ `5`, `3–7` ⇒ `10`, `8–15` ⇒ `15`, `16+` ⇒ `10`. -/
theorem check_trigger_count_banding (skill : SkillMetadata) :
    (check_trigger_count skill).max_score = 15 ∧
    ((check_trigger_count skill).passed = true ↔
      skill.triggers.keywords.length ≠ 0) ∧
    (skill.triggers.keywords.length = 0 → (check_trigger_count skill).score = 0 ∧
      (check_trigger_count skill).passed = false) ∧
    (1 ≤ skill.triggers.keywords.length → skill.triggers.keywords.length ≤ 2 →
      (check_trigger_count skill).score = 5) ∧
    (3 ≤ skill.triggers.keywords.length → skill.triggers.keywords.length ≤ 7 →
      (check_trigger_count skill).score = 10) ∧
    (8 ≤ skill.triggers.keywords.length → skill.triggers.keywords.length ≤ 15 →
      (check_trigger_count skill).score = 15) ∧
    (16 ≤ skill.triggers.keywords.length → (check_trigger_count skill).score = 10) := by
  refine ⟨rfl, ?_, ?_, ?_, ?_, ?_, ?_⟩
  · simp only [check_trigger_count, decide_eq_true_eq]
    omega
  · intro h
    simp [check_trigger_count, h]
  · intro h1 h2
    have h0 : ¬ skill.triggers.keywords.length = 0 := by omega
    simp [check_trigger_count, h0, h2]
  · intro h1 h2
    have h0 : ¬ skill.triggers.keywords.length = 0 := by omega
    have ha : ¬ skill.triggers.keywords.length ≤ 2 := by omega
    simp [check_trigger_count, h0, ha, h2]
  · intro h1 h2
    have h0 : ¬ skill.triggers.keywords.length = 0 := by omega
    have ha : ¬ skill.triggers.keywords.length ≤ 2 := by omega
    have hb : ¬ skill.triggers.keywords.length ≤ 7 := by omega
    simp [check_trigger_count, h0, ha, hb, h2]
  · intro h1
    have h0 : ¬ skill.triggers.keywords.length = 0 := by omega
    have ha : ¬ skill.triggers.keywords.length ≤ 2 := by omega
    have hb : ¬ skill.triggers.keywords.length ≤ 7 := by omega
    have hc : ¬ skill.triggers.keywords.length ≤ 15 := by omega
    simp [check_trigger_count, h0, ha, hb, hc]

/-- C6 witness: four keywords land in the `3–7 ⇒ 10` band. -/
theorem check_trigger_count_banding_witness :
    (check_trigger_count
      { triggers := ⟨["a", "b", "c", "d"], "yaml_description"⟩ }).score = 10 :=
  ((check_trigger_count_banding
      { triggers := ⟨["a", "b", "c", "d"], "yaml_description"⟩ }).2.2.2.2.1)
    (by norm_num) (by norm_num)

/-! ## L5 execution (`scripts/evaluators/l5_execution.py`)

The filesystem and `re.search` are abstracted: `readScript file` is the
content of `scripts_dir / file` when that file exists (`None` otherwise), and
`search pattern content` is `re.search(pattern, content) is not None`. -/

/-- One `{file, pattern}` entry of the L5 benchmark data. -/
structure PatternItem where
  file : String
  pattern : String
deriving Repr, DecidableEq

/-- The benchmark entry for one package in
`benchmarks/L5_execution/script_tests.json`; callers pass `none` for a falsy
entry (package absent from the JSON, or mapped to `{}`). -/
structure ScriptBench where
  required_patterns : List PatternItem := []
  forbidden_patterns : List PatternItem := []
deriving Repr, DecidableEq

/-- A required-pattern expectation is counted (`correct += 1`) exactly when
the target file exists and the pattern matches its content. -/
def required_ok (search : String → String → Bool)
    (readScript : String → Option String) (item : PatternItem) : Bool :=
  match readScript item.file with
  | some content => search item.pattern content
  | none => false

/-- A forbidden-pattern expectation is counted exactly when the target file
does not match the pattern, a missing file counting as satisfied. -/
def forbidden_ok (search : String → String → Bool)
    (readScript : String → Option String) (item : PatternItem) : Bool :=
  match readScript item.file with
  | some content => !search item.pattern content
  | none => true

/-- `check_script_benchmark` from `scripts/evaluators/l5_execution.py`.
`round(ratio * 50)` is Python's half-even rounding; the `{ratio:.0%}` in the
details string is rendered with the same rounding of `ratio * 100`. -/
def check_script_benchmark (search : String → String → Bool)
    (scripts_dir_exists : Bool) (readScript : String → Option String)
    (bench : Option ScriptBench) : MetricResult :=
  match bench with
  | none =>
      { name := "script_benchmark", score := 0, max_score := 0,
        details := "벤치마크 없음 (benchmarks/L5_execution/script_tests.json)",
        passed := true }
  | some bench =>
      if !scripts_dir_exists then
        { name := "script_benchmark", score := 0, max_score := 50,
          details := "scripts/ 없음", passed := false }
      else
        let correct := (bench.required_patterns.filter (required_ok search readScript)).length
          + (bench.forbidden_patterns.filter (forbidden_ok search readScript)).length
        let total := bench.required_patterns.length + bench.forbidden_patterns.length
        if total = 0 then
          { name := "script_benchmark", score := 0, max_score := 0,
            details := "벤치마크 데이터 비어있음", passed := true }
        else
          let ratio : ℚ := (correct : ℚ) / (total : ℚ)
          { name := "script_benchmark",
            score := (roundHalfEven (ratio * 50) : ℚ), max_score := 50,
            details := "정답 " ++ toString correct ++ "/" ++ toString total ++
              " (" ++ toString (roundHalfEven (ratio * 100)) ++ "%)",
            passed := decide ((6 : ℚ)/10 ≤ ratio) }

/-- The score the C7 claim predicts, written from the claim's words alone:
the fraction of satisfied pattern expectations times 50 (a missing target
file satisfying a forbidden-pattern expectation), with no condition on the
`scripts/` directory. -/
def claimed_script_benchmark_score (search : String → String → Bool)
    (readScript : String → Option String) (bench : ScriptBench) : ℚ :=
  (((bench.required_patterns.filter (required_ok search readScript)).length
      + (bench.forbidden_patterns.filter (forbidden_ok search readScript)).length : ℚ)
    / (bench.required_patterns.length + bench.forbidden_patterns.length : ℚ)) * 50

/-- C7 counterexample: a package whose benchmark entry holds exactly one
forbidden-pattern expectation but whose `scripts/` directory does not exist.
The target file is missing, so the claim's fraction-of-satisfied formula
yields `50`, but the code short-circuits on the missing directory and returns
score `0` (of `50`). -/
theorem check_script_benchmark_counterexample :
    (check_script_benchmark (fun _ _ => false) false (fun _ => none)
        (some ⟨[], [⟨"f", "p"⟩]⟩)).score = 0 ∧
    (check_script_benchmark (fun _ _ => false) false (fun _ => none)
        (some ⟨[], [⟨"f", "p"⟩]⟩)).max_score = 50 ∧
    claimed_script_benchmark_score (fun _ _ => false) (fun _ => none)
        ⟨[], [⟨"f", "p"⟩]⟩ = 50 := by
  refine ⟨rfl, rfl, ?_⟩
  norm_num [claimed_script_benchmark_score, forbidden_ok, List.filter]

theorem roundHalfEven_natCast (n : ℕ) : roundHalfEven (n : ℚ) = n := by
  have h := roundHalfEven_intCast (n : ℤ)
  push_cast at h
  exact_mod_cast h

/-- C7 (amended): when the package's benchmark entry has at least one pattern
expectation **and its `scripts/` directory exists**, the check scores
`round(fraction-of-satisfied × 50)` (Python's half-even rounding) with
`max_score = 50`, where a `required_patterns` entry is satisfied exactly when
its target file exists and matches the pattern and a `forbidden_patterns`
entry exactly when its target file does not match or is missing; when the
`scripts/` directory does not exist the check instead returns score `0` with
`max_score = 50` and `passed = false` without consulting any pattern. -/
theorem check_script_benchmark_amended (search : String → String → Bool)
    (readScript : String → Option String) (bench : ScriptBench)
    (h : 0 < bench.required_patterns.length + bench.forbidden_patterns.length) :
    (check_script_benchmark search true readScript (some bench)).score =
      (roundHalfEven (claimed_script_benchmark_score search readScript bench) : ℚ) ∧
    (check_script_benchmark search true readScript (some bench)).max_score = 50 ∧
    (∀ item ∈ bench.required_patterns,
      (required_ok search readScript item = true ↔
        ∃ content, readScript item.file = some content ∧
          search item.pattern content = true)) ∧
    (∀ item ∈ bench.forbidden_patterns,
      (forbidden_ok search readScript item = true ↔
        ∀ content, readScript item.file = some content →
          search item.pattern content = false)) ∧
    (check_script_benchmark search false readScript (some bench)).score = 0 ∧
    (check_script_benchmark search false readScript (some bench)).max_score = 50 ∧
    (check_script_benchmark search false readScript (some bench)).passed = false := by
  have htot : ¬ (bench.required_patterns.length + bench.forbidden_patterns.length = 0) := by
    omega
  refine ⟨?_, ?_, ?_, ?_, rfl, rfl, rfl⟩
  · simp only [check_script_benchmark, Bool.not_true, Bool.false_eq_true, if_false,
      htot, claimed_script_benchmark_score]
    push_cast
    ring_nf
  · simp [check_script_benchmark, htot]
  · intro item _
    unfold required_ok
    cases hread : readScript item.file with
    | none => simp [hread]
    | some content => simp [hread]
  · intro item _
    unfold forbidden_ok
    cases hread : readScript item.file with
    | none => simp [hread]
    | some content => simp [hread]

/-- C7 amended-theorem witness: one matching required pattern plus one
forbidden pattern whose target file is missing give `2/2` and score `50`. -/
theorem check_script_benchmark_amended_witness :
    (check_script_benchmark (fun p c => p == c) true
        (fun f => if f = "f" then some "x" else none)
        (some ⟨[⟨"f", "x"⟩], [⟨"g", "y"⟩]⟩)).score = 50 := by
  rw [(check_script_benchmark_amended (fun p c => p == c)
      (fun f => if f = "f" then some "x" else none)
      ⟨[⟨"f", "x"⟩], [⟨"g", "y"⟩]⟩ (by norm_num)).1]
  have hclaim : claimed_script_benchmark_score (fun p c => p == c)
      (fun f => if f = "f" then some "x" else none)
      ⟨[⟨"f", "x"⟩], [⟨"g", "y"⟩]⟩ = 50 := by
    have hff : (if ("f" : String) = "f" then some "x" else (none : Option String)) = some "x" := by
      decide
    have hgf : (if ("g" : String) = "f" then some "x" else (none : Option String)) = none := by
      decide
    norm_num [claimed_script_benchmark_score, required_ok, forbidden_ok, List.filter, hff, hgf]
  rw [hclaim]
  have h50 := roundHalfEven_natCast 50
  push_cast at h50
  rw [h50]
  norm_num

/-! ## Config loading (`scripts/config_loader.py`)

The `config_path.exists()` early return and the JSON parse are I/O glue; the
loader is modelled from the parsed file content on. -/

/-- `EvalConfig` from `scripts/eval_config.py`. -/
structure EvalConfig where
  skills_root : String := ""
  threshold : ℚ := 60
  layer_weights : List (String × ℚ) := DEFAULT_LAYER_WEIGHTS
deriving Repr, DecidableEq

/-- The parsed JSON content of a config file, restricted to the keys
`load_eval_config` reads (with its `raw.get` defaults). Weight values are
modelled as numbers, so the `isinstance` numeric check of
`_validate_layer_weights` is always satisfied and not represented. -/
structure RawConfig where
  skills_root : String := ""
  threshold : ℚ := 60
  layer_weights : List (String × ℚ) := []
deriving Repr, DecidableEq

/-- The `unknown` list computed by `_validate_layer_weights`:
`sorted(k for k in weights.keys() if k not in DEFAULT_LAYER_WEIGHTS)`. -/
def unknown_ids (weights : List (String × ℚ)) : List String :=
  pySorted ((weights.map Prod.fst).filter
    (fun k => (DEFAULT_LAYER_WEIGHTS.lookup k).isNone))

/-- `_validate_layer_weights` from `scripts/config_loader.py`: the loop over
`weights.items()` raises at the first negative value. -/
def validate_layer_weights (weights : List (String × ℚ)) : Except String Unit :=
  let unknown := unknown_ids weights
  if unknown.isEmpty then
    match weights.find? (fun p => decide (p.2 < 0)) with
    | some p => .error ("Layer weight for " ++ p.1 ++ " must be non-negative")
    | none => .ok ()
  else
    .error ("Unknown layer weight keys: " ++ String.intercalate ", " unknown)

/-- `merged_weights = dict(DEFAULT_LAYER_WEIGHTS); merged_weights.update(raw_weights)`. -/
def dict_update (base upd : List (String × ℚ)) : List (String × ℚ) :=
  upd.foldl (fun acc p => dictInsert acc p.1 p.2) base

/-- `load_eval_config` from `scripts/config_loader.py`, from parsed content. -/
def load_eval_config (raw : RawConfig) : Except String EvalConfig :=
  match validate_layer_weights raw.layer_weights with
  | .error e => .error e
  | .ok _ =>
      .ok { skills_root := raw.skills_root, threshold := raw.threshold,
            layer_weights := dict_update DEFAULT_LAYER_WEIGHTS raw.layer_weights }

theorem lookup_eq_none_of_not_mem (d : List (String × β)) (k : String)
    (h : ¬ k ∈ d.map Prod.fst) : d.lookup k = none := by
  cases hl : d.lookup k with
  | none => rfl
  | some v =>
      exact absurd ((lookup_isSome_iff_mem d k).mp (by rw [hl]; rfl)) h

/-- Lookup in a Python-style dict update: entries of `upd` win, `base`
supplies the rest. -/
theorem lookup_dict_update (base upd : List (String × ℚ))
    (hnd : (upd.map Prod.fst).Nodup) (k : String) :
    (dict_update base upd).lookup k = (upd.lookup k).or (base.lookup k) := by
  induction upd generalizing base with
  | nil => simp [dict_update, List.lookup]
  | cons p rest ih =>
      simp only [List.map_cons, List.nodup_cons] at hnd
      have hstep : dict_update base (p :: rest) =
          dict_update (dictInsert base p.1 p.2) rest := rfl
      rw [hstep, ih _ hnd.2]
      by_cases hk : k = p.1
      · subst hk
        have hrest : rest.lookup p.1 = none :=
          lookup_eq_none_of_not_mem rest p.1 hnd.1
        simp [hrest, lookup_dictInsert_self, List.lookup]
      · have h1 : (k == p.1) = false := beq_false_of_ne hk
        rw [lookup_dictInsert_ne base p.1 k p.2 hk]
        simp [List.lookup, h1]

/-- C8: a parsed config whose `layer_weights` contain a key outside the known
layer IDs is rejected with an error naming every unknown key; one with known
keys but a negative value is rejected with an error naming the offending key;
one with only known, non-negative weights loads successfully, with the given
weights merged over the defaults (given entries win, defaults fill the
unspecified layers). When both an unknown key and a negative value are
present, the unknown-key error is raised (it still names an offending key). -/
theorem load_eval_config_validation (raw : RawConfig) :
    (unknown_ids raw.layer_weights ≠ [] →
      load_eval_config raw = .error ("Unknown layer weight keys: " ++
        String.intercalate ", " (unknown_ids raw.layer_weights)) ∧
      ∀ k ∈ raw.layer_weights.map Prod.fst,
        (DEFAULT_LAYER_WEIGHTS.lookup k).isNone →
          k ∈ unknown_ids raw.layer_weights) ∧
    (∀ p : String × ℚ, unknown_ids raw.layer_weights = [] →
      raw.layer_weights.find? (fun p => decide (p.2 < 0)) = some p →
      load_eval_config raw =
        .error ("Layer weight for " ++ p.1 ++ " must be non-negative") ∧
      p ∈ raw.layer_weights ∧ p.2 < 0) ∧
    ((∀ k ∈ raw.layer_weights.map Prod.fst,
        (DEFAULT_LAYER_WEIGHTS.lookup k).isSome) →
     (∀ p ∈ raw.layer_weights, 0 ≤ p.2) →
     (raw.layer_weights.map Prod.fst).Nodup →
      load_eval_config raw =
        .ok { skills_root := raw.skills_root, threshold := raw.threshold,
              layer_weights := dict_update DEFAULT_LAYER_WEIGHTS raw.layer_weights } ∧
      ∀ lid : String,
        (dict_update DEFAULT_LAYER_WEIGHTS raw.layer_weights).lookup lid =
          (raw.layer_weights.lookup lid).or (DEFAULT_LAYER_WEIGHTS.lookup lid)) := by
  refine ⟨?_, ?_, ?_⟩
  · intro hne
    constructor
    · simp [load_eval_config, validate_layer_weights, List.isEmpty_iff, hne]
    · intro k hk hnone
      rw [unknown_ids, mem_pySorted, List.mem_filter]
      exact ⟨hk, by simp [hnone]⟩
  · intro p hempty hfind
    refine ⟨?_, ?_, ?_⟩
    · simp [load_eval_config, validate_layer_weights, hempty, hfind]
    · exact List.mem_of_find?_eq_some hfind
    · have := List.find?_some hfind
      simpa using this
  · intro hknown hnonneg hnd
    have hempty : unknown_ids raw.layer_weights = [] := by
      rw [unknown_ids]
      have : (raw.layer_weights.map Prod.fst).filter
          (fun k => (DEFAULT_LAYER_WEIGHTS.lookup k).isNone) = [] := by
        apply List.filter_eq_nil_iff.mpr
        intro k hk hcontra
        rw [Option.isNone_iff_eq_none] at hcontra
        have h1 := hknown k hk
        rw [hcontra] at h1
        simp at h1
      rw [this]
      rfl
    have hfind : raw.layer_weights.find? (fun p => decide (p.2 < 0)) = none := by
      apply List.find?_eq_none.mpr
      intro p hp
      simp [not_lt]
      exact hnonneg p hp
    constructor
    · simp [load_eval_config, validate_layer_weights, hempty, hfind]
    · intro lid
      exact lookup_dict_update DEFAULT_LAYER_WEIGHTS raw.layer_weights hnd lid

/-- C8 witness: the single unknown key `L9` is rejected by name. -/
theorem load_eval_config_validation_witness :
    load_eval_config { layer_weights := [("L9", 1)] } =
      .error "Unknown layer weight keys: L9" := by
  have h := ((load_eval_config_validation { layer_weights := [("L9", 1)] }).1
    (by decide)).1
  rw [h]
  congr 1
